import Mathlib

/-!
Verification of `composetest/app.py`: a minimal web endpoint that reports
host identity and a visit counter held in an external store (Redis), with a
bounded retry loop around the counter increment.

The embedding models the environment as a function from attempt index to the
outcome of that attempt of `cache.incr('hits')`: success (the store performs
its atomic increment and returns the post-increment value), a connection
error (`redis.exceptions.ConnectionError`), or any other exception.  The
store's counter value is threaded explicitly; a connection-failed attempt
does not change it.
-/

namespace Composetest

/-- Outcome of one attempt of `cache.incr('hits')` as seen by the caller:
the store either performs the atomic increment and returns the
post-increment value, raises a connection error, or raises some other
exception (protocol-level or type error). -/
inductive AttemptOutcome where
  | success
  | connError
  | otherError
deriving DecidableEq

/-- Result of a whole `get_hit_count` call: the returned integer, or the
exception class that escaped the call. -/
inductive HitResult where
  | value (v : Int)
  | connFail
  | otherFail
deriving DecidableEq

/-- Observable trace data of one `get_hit_count` call: its result, the
store's counter afterwards, how many `time.sleep(0.5)` effects ran, how many
`cache.incr` attempts were issued, and the value of the local `retries`
variable at the moment the call ended. -/
structure CallResult where
  res : HitResult
  store : Int
  sleeps : Nat
  attempts : Nat
  retriesLeft : Nat
deriving DecidableEq

/-- The `while True` loop body of `get_hit_count` (app.py lines 9-17),
parametrised by the attempt index `i`, the current `retries` budget and the
store counter `c`:

    try:
        return cache.incr('hits')
    except redis.exceptions.ConnectionError as exc:
        if retries == 0:
            raise exc
        retries -= 1
        time.sleep(0.5)
-/
def getHitCountAux (outcome : Nat → AttemptOutcome) : Nat → Nat → Int → CallResult
  | i, retries, c =>
    match outcome i with
    | .success => ⟨.value (c + 1), c + 1, 0, 1, retries⟩
    | .otherError => ⟨.otherFail, c, 0, 1, retries⟩
    | .connError =>
      match retries with
      | 0 => ⟨.connFail, c, 0, 1, 0⟩
      | r + 1 =>
        let p := getHitCountAux outcome (i + 1) r c
        ⟨p.res, p.store, p.sleeps + 1, p.attempts + 1, p.retriesLeft⟩

/-- The function `get_hit_count` (app.py lines 8-17): `retries = 5`, then the retry loop,
starting at attempt index 0 with store counter `c`. -/
def get_hit_count (outcome : Nat → AttemptOutcome) (c : Int) : CallResult :=
  getHitCountAux outcome 0 5 c

/-- An environment in which every attempt raises a connection error. -/
def constConn : Nat → AttemptOutcome := fun _ => .connError

/-- An environment in which the store is reachable: every attempt succeeds. -/
def allOk : Nat → AttemptOutcome := fun _ => .success

/-- An environment in which the first three attempts raise a connection
error and the store is reachable from the fourth attempt on. -/
def recoverAt3 : Nat → AttemptOutcome :=
  fun i => if i < 3 then .connError else .success

/-- An environment in which the first two attempts raise a connection error
and the third raises a non-connection exception. -/
def otherAt2 : Nat → AttemptOutcome :=
  fun i => if i < 2 then .connError else .otherError

/-- Delay of one `time.sleep(0.5)` in time units (app.py line 17). -/
def delay_per_retry : ℚ := 0.5

/-- Total blocking delay of a call: one fixed delay per sleep effect. -/
def totalDelay (r : CallResult) : ℚ := r.sleeps * delay_per_retry

/-- Runs `n` sequential `get_hit_count` calls against the same counter with the
store reachable (every attempt of every call succeeds), starting from store
counter `c`: the list of returned values, threading the store state from
call to call. -/
def runCalls : Nat → Int → List Int
  | 0, _ => []
  | n + 1, c =>
    match (get_hit_count allOk c).res with
    | .value v => v :: runCalls n (get_hit_count allOk c).store
    | .connFail => runCalls n (get_hit_count allOk c).store
    | .otherFail => runCalls n (get_hit_count allOk c).store

/-- The response body of `hello` (app.py lines 26-31):

    return_msg = (
        f"Hostname: {hostname}<br/>"
        f"IP Address: {ip_address}<br/>"
        f"I have been seen {count} times.<br/>"
    )
-/
def return_msg (hostname ip_address : String) (count : Int) : String :=
  "Hostname: " ++ (hostname ++ ("<br/>IP Address: " ++ (ip_address ++
    ("<br/>I have been seen " ++ (toString count ++ " times.<br/>")))))

/-- What escapes the route handler `hello`: a `200` body, or one of the
unhandled exceptions (resolution failure carrying the underlying error
unmodified, connection-failure from the exhausted retry loop, or any other
store error). -/
inductive HelloResponse where
  | body (s : String)
  | resolutionError (e : String)
  | connectionError
  | storeError
deriving DecidableEq

/-- Observable effect of one request to the route: the response (or escaped
exception), the store counter afterwards, and how many `cache.incr`
attempts were issued to the store during the request. -/
structure HelloResult where
  response : HelloResponse
  store : Int
  storeAttempts : Nat
deriving DecidableEq

/-- The route handler `hello` (app.py lines 19-31): resolve the host name
and address (`socket.gethostname` / `socket.gethostbyname`, both external —
modelled as an `Except` input: resolution either yields the pair or raises),
then call `get_hit_count`, then format the body.  Nothing is caught: a
resolution failure escapes before any store attempt, and a `get_hit_count`
failure escapes after it. -/
def hello (resolve : Except String (String × String))
    (outcome : Nat → AttemptOutcome) (c : Int) : HelloResult :=
  match resolve with
  | .error e => ⟨.resolutionError e, c, 0⟩
  | .ok (hostname, ip_address) =>
    let r := get_hit_count outcome c
    match r.res with
    | .value count => ⟨.body (return_msg hostname ip_address count), r.store, r.attempts⟩
    | .connFail => ⟨.connectionError, r.store, r.attempts⟩
    | .otherFail => ⟨.storeError, r.store, r.attempts⟩

/-! ### Behaviour of the retry loop -/

/-- If every attempt from index `i` through `i + r` raises a connection
error, the loop observes `r + 1` failures, sleeps `r` times, and re-raises
the final connection error with the store untouched. -/
theorem getHitCountAux_allConn (outcome : Nat → AttemptOutcome) :
    ∀ r i c, (∀ j, j ≤ r → outcome (i + j) = .connError) →
      getHitCountAux outcome i r c = ⟨.connFail, c, r, r + 1, 0⟩ := by
  intro r
  induction r with
  | zero =>
    intro i c h
    have h0 := h 0 (Nat.le_refl 0)
    rw [Nat.add_zero] at h0
    simp [getHitCountAux, h0]
  | succ r ih =>
    intro i c h
    have h0 := h 0 (Nat.zero_le _)
    rw [Nat.add_zero] at h0
    have hrec := ih (i + 1) c (fun j hj => by
      have := h (j + 1) (Nat.succ_le_succ hj)
      rwa [show i + (j + 1) = i + 1 + j by omega] at this)
    simp [getHitCountAux, h0, hrec]

/-- If the first `k` attempts from index `i` raise a connection error and
attempt `i + k` succeeds (with `k` within the budget `r`), the loop returns
the post-increment value, having slept `k` times with `r - k` budget left. -/
theorem getHitCountAux_recover (outcome : Nat → AttemptOutcome) :
    ∀ k r i c, k ≤ r → (∀ j, j < k → outcome (i + j) = .connError) →
      outcome (i + k) = .success →
      getHitCountAux outcome i r c = ⟨.value (c + 1), c + 1, k, k + 1, r - k⟩ := by
  intro k
  induction k with
  | zero =>
    intro r i c _ _ hs
    rw [Nat.add_zero] at hs
    cases r <;> simp [getHitCountAux, hs]
  | succ k ih =>
    intro r i c hk hconn hs
    obtain ⟨r, rfl⟩ : ∃ r₀, r = r₀ + 1 := ⟨r - 1, by omega⟩
    have h0 := hconn 0 (Nat.succ_pos _)
    rw [Nat.add_zero] at h0
    have hrec := ih r (i + 1) c (Nat.le_of_succ_le_succ hk)
      (fun j hj => by
        have := hconn (j + 1) (Nat.succ_lt_succ hj)
        rwa [show i + (j + 1) = i + 1 + j by omega] at this)
      (by rwa [show i + 1 + k = i + (k + 1) by omega])
    simp [getHitCountAux, h0, hrec]

/-- If the first `k` attempts from index `i` raise a connection error and
attempt `i + k` raises a non-connection exception (with `k` within the
budget `r`), that exception escapes at once: no further attempt, no further
sleep, the remaining budget `r - k` unconsumed, the store untouched. -/
theorem getHitCountAux_other (outcome : Nat → AttemptOutcome) :
    ∀ k r i c, k ≤ r → (∀ j, j < k → outcome (i + j) = .connError) →
      outcome (i + k) = .otherError →
      getHitCountAux outcome i r c = ⟨.otherFail, c, k, k + 1, r - k⟩ := by
  intro k
  induction k with
  | zero =>
    intro r i c _ _ hs
    rw [Nat.add_zero] at hs
    cases r <;> simp [getHitCountAux, hs]
  | succ k ih =>
    intro r i c hk hconn hs
    obtain ⟨r, rfl⟩ : ∃ r₀, r = r₀ + 1 := ⟨r - 1, by omega⟩
    have h0 := hconn 0 (Nat.succ_pos _)
    rw [Nat.add_zero] at h0
    have hrec := ih r (i + 1) c (Nat.le_of_succ_le_succ hk)
      (fun j hj => by
        have := hconn (j + 1) (Nat.succ_lt_succ hj)
        rwa [show i + (j + 1) = i + 1 + j by omega] at this)
      (by rwa [show i + 1 + k = i + (k + 1) by omega])
    simp [getHitCountAux, h0, hrec]

/-- Budget accounting: the loop never ends with more budget than it started
with, it sleeps exactly once per unit of budget consumed, and it makes one
more attempt than it sleeps (the decrement-and-sleep happens between
attempts, never after the last one). -/
theorem getHitCountAux_budget (outcome : Nat → AttemptOutcome) :
    ∀ r i c,
      (getHitCountAux outcome i r c).retriesLeft ≤ r ∧
      (getHitCountAux outcome i r c).sleeps =
        r - (getHitCountAux outcome i r c).retriesLeft ∧
      (getHitCountAux outcome i r c).attempts =
        (getHitCountAux outcome i r c).sleeps + 1 := by
  intro r
  induction r with
  | zero =>
    intro i c
    cases h : outcome i <;> simp [getHitCountAux, h]
  | succ r ih =>
    intro i c
    cases h : outcome i with
    | success => simp [getHitCountAux, h]
    | otherError => simp [getHitCountAux, h]
    | connError =>
      have := ih (i + 1) c
      simp only [getHitCountAux, h]
      refine ⟨by omega, by omega, by omega⟩

/-! ### Sequential calls against a reachable store -/

/-- With the store reachable, a call returns the post-increment value at
once, so `runCalls` unfolds one call at a time. -/
theorem runCalls_succ (n : Nat) (c : Int) :
    runCalls (n + 1) c = (c + 1) :: runCalls n (c + 1) := rfl

/-- Each run of sequential calls produces one value per call. -/
theorem runCalls_length : ∀ n c, (runCalls n c).length = n := by
  intro n
  induction n with
  | zero => intro c; rfl
  | succ n ih =>
    intro c
    rw [runCalls_succ, List.length_cons, ih]

/-- The values returned by sequential calls form a chain from the starting
counter, each exactly one more than its predecessor. -/
theorem runCalls_chain :
    ∀ n c, List.Chain (fun x y => x < y ∧ y = x + 1) c (runCalls n c) := by
  intro n
  induction n with
  | zero => intro c; exact List.Chain.nil
  | succ n ih =>
    intro c
    rw [runCalls_succ]
    exact List.Chain.cons ⟨by omega, rfl⟩ (ih (c + 1))

/-! ### Claim theorems -/

/-- C1: when every attempt raises a connection failure, `get_hit_count`
observes exactly 6 connection failures (1 initial attempt + 5 retries),
then fails by re-raising the final connection failure — the 6th failure
raises rather than retries — and no integer value is returned. -/
theorem exhausted_call_raises (outcome : Nat → AttemptOutcome) (c : Int)
    (h : ∀ j, j ≤ 5 → outcome j = .connError) :
    get_hit_count outcome c = ⟨.connFail, c, 5, 6, 0⟩ ∧
    ∀ v, (get_hit_count outcome c).res ≠ .value v := by
  have he : get_hit_count outcome c = ⟨.connFail, c, 5, 6, 0⟩ :=
    getHitCountAux_allConn outcome 5 0 c (fun j hj => by simpa using h j hj)
  refine ⟨he, fun v => ?_⟩
  rw [he]
  simp

/-- Witness for C1 at the always-unreachable store: 6 attempts, 5 sleeps,
connection failure raised. -/
theorem exhausted_call_raises_witness :
    get_hit_count constConn 0 = ⟨.connFail, 0, 5, 6, 0⟩ :=
  (exhausted_call_raises constConn 0 (fun _ _ => rfl)).1

/-- C2: if the first `k` attempts (`k ≤ 5`) raise a connection failure and
attempt `k + 1` succeeds, `get_hit_count` returns the post-increment value
produced by the store's atomic increment on that successful attempt. -/
theorem recovery_returns_post_increment (outcome : Nat → AttemptOutcome)
    (k : Nat) (c : Int) (hk : k ≤ 5)
    (hconn : ∀ j, j < k → outcome j = .connError)
    (hs : outcome k = .success) :
    get_hit_count outcome c = ⟨.value (c + 1), c + 1, k, k + 1, 5 - k⟩ :=
  getHitCountAux_recover outcome k 5 0 c hk
    (fun j hj => by simpa using hconn j hj) (by simpa using hs)

/-- Witness for C2 with 3 connection failures before the store recovers:
the call returns the post-increment value 1. -/
theorem recovery_returns_post_increment_witness :
    get_hit_count recoverAt3 0 = ⟨.value 1, 1, 3, 4, 2⟩ :=
  recovery_returns_post_increment recoverAt3 3 0 (by decide) (by decide)
    (by decide)

/-- C3: sequential successful calls against the same counter with the store
reachable return one value per call, and the values are strictly increasing
by exactly 1 per call. -/
theorem sequential_calls_monotonic (n : Nat) (c : Int) :
    (runCalls n c).length = n ∧
    List.Chain' (fun x y => x < y ∧ y = x + 1) (runCalls n c) := by
  refine ⟨runCalls_length n c, ?_⟩
  cases n with
  | zero => trivial
  | succ n =>
    rw [runCalls_succ]
    exact runCalls_chain n (c + 1)

/-- C4: a non-connection failure escapes `get_hit_count` immediately — one
single attempt at whatever index and budget it occurs, no extra sleep, no
budget consumed by it — and in a full call after `k ≤ 5` connection
failures it escapes with the remaining `5 - k` budget unconsumed. -/
theorem non_connection_error_immediate (outcome : Nat → AttemptOutcome)
    (c : Int) :
    (∀ i r, outcome i = .otherError →
      getHitCountAux outcome i r c = ⟨.otherFail, c, 0, 1, r⟩) ∧
    (∀ k, k ≤ 5 → (∀ j, j < k → outcome j = .connError) →
      outcome k = .otherError →
      get_hit_count outcome c = ⟨.otherFail, c, k, k + 1, 5 - k⟩) := by
  constructor
  · intro i r h
    cases r <;> simp [getHitCountAux, h]
  · intro k hk hconn ho
    exact getHitCountAux_other outcome k 5 0 c hk
      (fun j hj => by simpa using hconn j hj) (by simpa using ho)

/-- Witness for C4: two connection failures then a non-connection error —
the call fails at once on the 3rd attempt with 3 budget units unconsumed. -/
theorem non_connection_error_immediate_witness :
    get_hit_count otherAt2 0 = ⟨.otherFail, 0, 2, 3, 3⟩ :=
  (non_connection_error_immediate otherAt2 0).2 2 (by decide) (by decide)
    (by decide)

/-- C5: every call's total blocking delay is exactly the number of consumed
retries times the fixed 0.5 delay — hence at least N × 0.5 when N retries
are consumed — and is bounded by 5 × 0.5 in the worst case. -/
theorem retry_delay_bounds (outcome : Nat → AttemptOutcome) (c : Int) :
    totalDelay (get_hit_count outcome c) =
      ((5 - (get_hit_count outcome c).retriesLeft : Nat) : ℚ) *
        delay_per_retry ∧
    (get_hit_count outcome c).sleeps ≤ 5 ∧
    totalDelay (get_hit_count outcome c) ≤ 5 * delay_per_retry := by
  obtain ⟨h1, h2, h3⟩ := getHitCountAux_budget outcome 5 0 c
  have hs5 : (get_hit_count outcome c).sleeps ≤ 5 := by
    have := h2
    unfold get_hit_count
    omega
  refine ⟨?_, hs5, ?_⟩
  · rw [totalDelay]
    congr 1
    exact_mod_cast congrArg Nat.cast h2
  · rw [totalDelay]
    have hc : ((get_hit_count outcome c).sleeps : ℚ) ≤ 5 := by
      exact_mod_cast hs5
    have hd : (0 : ℚ) ≤ delay_per_retry := by norm_num [delay_per_retry]
    exact mul_le_mul_of_nonneg_right hc hd

/-- C6: with the store reachable and the counter at 0, the first request
returns the body for count 1 (containing "I have been seen 1 times."), the
second the body for count 2; the body also contains the resolved host name
and address. -/
theorem two_requests_bodies (h a : String) :
    hello (.ok (h, a)) allOk 0 = ⟨.body (return_msg h a 1), 1, 1⟩ ∧
    hello (.ok (h, a)) allOk 1 = ⟨.body (return_msg h a 2), 2, 1⟩ ∧
    (∃ p, return_msg h a 1 = p ++ "I have been seen 1 times.<br/>") ∧
    (∃ p, return_msg h a 2 = p ++ "I have been seen 2 times.<br/>") ∧
    (∃ p q, return_msg h a 1 = p ++ (h ++ q)) ∧
    (∃ p q, return_msg h a 1 = p ++ (a ++ q)) := by
  refine ⟨rfl, rfl, ?_, ?_, ?_, ?_⟩
  · refine ⟨"Hostname: " ++ (h ++ ("<br/>IP Address: " ++ (a ++ "<br/>"))), ?_⟩
    have hlit : ("<br/>I have been seen " ++ (toString (1 : Int) ++
        " times.<br/>") : String) = "<br/>I have been seen 1 times.<br/>" := rfl
    simp [return_msg, String.append_assoc, hlit]
  · refine ⟨"Hostname: " ++ (h ++ ("<br/>IP Address: " ++ (a ++ "<br/>"))), ?_⟩
    have hlit : ("<br/>I have been seen " ++ (toString (2 : Int) ++
        " times.<br/>") : String) = "<br/>I have been seen 2 times.<br/>" := rfl
    simp [return_msg, String.append_assoc, hlit]
  · exact ⟨"Hostname: ", "<br/>IP Address: " ++ (a ++
      ("<br/>I have been seen " ++ (toString (1 : Int) ++ " times.<br/>"))),
      rfl⟩
  · refine ⟨"Hostname: " ++ (h ++ "<br/>IP Address: "),
      "<br/>I have been seen " ++ (toString (1 : Int) ++ " times.<br/>"), ?_⟩
    simp [return_msg, String.append_assoc]

/-- C7: when resolution fails, the handler propagates the underlying
failure unmodified and uncaught — no retry, no substitute error — and
nothing else happens during the request. -/
theorem resolution_failure_propagates (e : String)
    (outcome : Nat → AttemptOutcome) (c : Int) :
    hello (.error e) outcome c = ⟨.resolutionError e, c, 0⟩ := rfl

/-- C8: the retry budget is per-call — after an arbitrary first call
(exhausted or not), a second call facing only connection failures still
performs the full 6 attempts with 5 sleeps before failing. -/
theorem retry_budget_per_call (out1 out2 : Nat → AttemptOutcome) (c : Int)
    (h : ∀ j, j ≤ 5 → out2 j = .connError) :
    get_hit_count out2 (get_hit_count out1 c).store =
      ⟨.connFail, (get_hit_count out1 c).store, 5, 6, 0⟩ :=
  getHitCountAux_allConn out2 5 0 _ (fun j hj => by simpa using h j hj)

/-- Witness for C8: a call right after an exhausted call still gets the
full budget of 6 attempts. -/
theorem retry_budget_per_call_witness :
    get_hit_count constConn (get_hit_count constConn 0).store =
      ⟨.connFail, (get_hit_count constConn 0).store, 5, 6, 0⟩ :=
  retry_budget_per_call constConn constConn 0 (fun _ _ => rfl)

/-- C9: identity resolution happens strictly before the counter increment:
a request whose resolution fails issues no increment attempt to the store
and leaves the counter unchanged, while a request whose resolution succeeds
issues exactly the attempts of its `get_hit_count` call. -/
theorem no_increment_on_resolution_failure (e : String)
    (outcome : Nat → AttemptOutcome) (c : Int) :
    (hello (.error e) outcome c).storeAttempts = 0 ∧
    (hello (.error e) outcome c).store = c ∧
    ∀ hn ip, (hello (.ok (hn, ip)) outcome c).storeAttempts =
      (get_hit_count outcome c).attempts := by
  refine ⟨rfl, rfl, fun hn ip => ?_⟩
  cases hres : (get_hit_count outcome c).res <;> simp [hello, hres]

/-- C10: a call sleeps exactly once per consumed retry and never after its
terminal attempt (attempts = sleeps + 1); an exhausting call sleeps exactly
5 times over its 6 attempts. -/
theorem sleeps_match_consumed_retries (outcome : Nat → AttemptOutcome)
    (c : Int) :
    (get_hit_count outcome c).sleeps =
      5 - (get_hit_count outcome c).retriesLeft ∧
    (get_hit_count outcome c).attempts =
      (get_hit_count outcome c).sleeps + 1 ∧
    ((∀ j, j ≤ 5 → outcome j = .connError) →
      (get_hit_count outcome c).sleeps = 5 ∧
      (get_hit_count outcome c).attempts = 6) := by
  obtain ⟨h1, h2, h3⟩ := getHitCountAux_budget outcome 5 0 c
  refine ⟨h2, h3, fun hall => ?_⟩
  have he : get_hit_count outcome c = ⟨.connFail, c, 5, 6, 0⟩ :=
    getHitCountAux_allConn outcome 5 0 c (fun j hj => by simpa using hall j hj)
  rw [he]
  exact ⟨rfl, rfl⟩

/-- Witness for C10: the always-unreachable store gives exactly 5 sleeps
and 6 attempts. -/
theorem sleeps_match_consumed_retries_witness :
    (get_hit_count constConn 0).sleeps = 5 ∧
    (get_hit_count constConn 0).attempts = 6 :=
  (sleeps_match_consumed_retries constConn 0).2.2 (fun _ _ => rfl)

end Composetest
